import Mathlib

/-!
Shallow embedding of the profile aggregation engine of `backend/main.py`
(`ProfileBuilderService` and `AIService`), together with theorems checking the
natural-language design document against it.

External collaborators (the Gemini client, the network scrapers, SQLite) are
modelled as data carried on each delta: every AI call made while processing a
source is recorded as its outcome (`AICallResult` / `Option String`), so the
fold itself is a pure function of the delta sequence.
-/

set_option autoImplicit false

namespace ProfileBuilder

/-- Python truthiness of an optional string: `None` and `""` are falsy. -/
def isFalsy : Option String → Bool
  | none => true
  | some s => s == ""

/-! ## AI capability (`AIService`) -/

/-- Outcome of `json.loads(response.text)` inside `AIService.extract_skills`:
the text is not valid JSON, a JSON list (elements modelled as strings), or
some other valid JSON value (`isinstance(skills, list)` is false). -/
inductive JsonOutcome where
  | notJson
  | jsonList (xs : List String)
  | jsonOther
  deriving DecidableEq

/-- Result of one `model.generate_content` call: the call raised (`failure`),
or returned a response whose text is `text` and whose JSON-parse outcome is
`parsed`. -/
inductive AICallResult where
  | failure
  | success (text : String) (parsed : JsonOutcome)
  deriving DecidableEq

/-- Leading and trailing whitespace removed: Python `str.strip()` at the
character level. -/
def stripChars (l : List Char) : List Char :=
  ((l.dropWhile Char.isWhitespace).reverse.dropWhile Char.isWhitespace).reverse

/-- Python `str.strip()`. -/
def pyStrip (s : String) : String := (stripChars s.data).asString

/-- Python `str.split(sep)` for a one-character separator: the pieces between
the separators, empty pieces included (`"".split(',') == [""]`). -/
def splitOnChar (sep : Char) : List Char → List (List Char)
  | [] => [[]]
  | c :: rest =>
    match splitOnChar sep rest with
    | [] => [[c]]
    | h :: t => if c = sep then [] :: h :: t else (c :: h) :: t

/-- `AIService.extract_skills`: on a JSON list, return it verbatim; on other
valid JSON, return `[]`; when `json.loads` raises, split the raw text on
commas, strip each piece, and keep the non-empty ones
(`[skill.strip() for skill in response.text.split(',') if skill.strip()]`);
when the AI call itself raises, return `[]`. -/
def extract_skills : AICallResult → List String
  | .failure => []
  | .success _ (.jsonList xs) => xs
  | .success _ .jsonOther => []
  | .success t .notJson =>
    ((splitOnChar ',' t.data).map (fun l => (stripChars l).asString)).filter (fun s => s ≠ "")

/-- The fixed fallback sentence returned by `AIService.generate_bio` when the
generation call raises. -/
def fallbackBio : String := "Creative professional with diverse skills and experience."

/-- `AIService.generate_bio`: `response.text.strip()` on success, the fixed
fallback sentence when the call raises (`none`). -/
def generate_bio : Option String → String
  | none => fallbackBio
  | some t => pyStrip t

/-! ## Hashtag extraction (`_extract_hashtags`) -/

/-- A regex `\w` word character (ASCII model: letters, digits, underscore). -/
def isWordChar (c : Char) : Bool := c.isAlphanum || c == '_'

/-- Scanner for `re.findall(r'#(\w+)', text)`, as a one-pass automaton: a
`#` starts collecting word characters (`acc` holds them reversed); a
non-word character ends the current capture, which is emitted when
non-empty (a `#` with no word character after it matches nothing); a `#`
also starts the next potential match, exactly where the regex engine would
resume after a match. -/
def hashtagScan : List Char → Option (List Char) → List String
  | [], none => []
  | [], some acc => if acc.isEmpty then [] else [acc.reverse.asString]
  | c :: rest, none =>
    if c = '#' then hashtagScan rest (some [])
    else hashtagScan rest none
  | c :: rest, some acc =>
    if isWordChar c then hashtagScan rest (some (c :: acc))
    else
      (if acc.isEmpty then [] else [acc.reverse.asString])
        ++ hashtagScan rest (if c = '#' then some [] else none)

/-- `ProfileBuilderService._extract_hashtags`. -/
def extract_hashtags (text : String) : List String := hashtagScan text.toList none

/-! ## Data model -/

/-- One element of `profile_data["portfolio_items"]` as built by the
processing functions; the `ai_analysis` key is absent (`none`) until
`_enhance_with_ai` sets it. -/
structure PortfolioItem where
  title : String
  description : String
  media_type : String
  media_url : Option String
  tags : List String
  source : String
  ai_analysis : Option String
  deriving DecidableEq

/-- The `profile_data` dict assembled by `build_profile`. The `phone` and
`location` keys are created only when a source writes them; a missing key
reads as `None` via `.get`, so both states are modelled as `none`. -/
structure Profile where
  user_id : String
  name : Option String
  bio : Option String
  email : Option String
  phone : Option String
  location : Option String
  profession : Option String
  skills : List String
  social_links : List (String × String)
  portfolio_items : List PortfolioItem
  deriving DecidableEq

/-- The empty `profile_data` dict created at the top of `build_profile`. -/
def initProfile (user_id : String) : Profile :=
  { user_id := user_id, name := none, bio := none, email := none, phone := none
    location := none, profession := none, skills := [], social_links := []
    portfolio_items := [] }

/-- Python dict assignment `links[k] = v`: update the value in place when the
key exists, append the pair otherwise. -/
def setLink : List (String × String) → String → String → List (String × String)
  | [], k, v => [(k, v)]
  | (k2, v2) :: rest, k, v =>
    if k2 = k then (k2, v) :: rest else (k2, v2) :: setLink rest k v

/-- Python dict read `links.get(k)`. -/
def getLink (k : String) : List (String × String) → Option String
  | [] => none
  | (k2, v) :: rest => if k2 = k then some v else getLink k rest

/-! ## Raw source payloads (shapes returned by the scrapers) -/

/-- One entry of `recent_posts` in the Instagram payload. -/
structure InstaPost where
  url : Option String
  caption : Option String
  likes : Option Nat
  media : Option String
  deriving DecidableEq

/-- The Instagram payload fields read by `_process_instagram_data`
(`media` stands for the post's `"type"` key). -/
structure InstaData where
  name : Option String
  bio : Option String
  recent_posts : List InstaPost
  deriving DecidableEq

/-- One entry of `experience` in the LinkedIn payload; `title` and `company`
are read with `.get` (missing renders as `None` in the f-string), while
`description` defaults to `""`. -/
structure Experience where
  title : Option String
  company : Option String
  description : Option String
  deriving DecidableEq

/-- The LinkedIn payload fields read by `_process_linkedin_data`. -/
structure LinkedInData where
  name : Option String
  headline : Option String
  location : Option String
  skills : List String
  experience : List Experience
  deriving DecidableEq

/-- A successful website scrape, as read by `_process_website_data`
(`data.get("description", "")`, `data.get("content", "")`,
`data.get("images", [])`). A failed scrape returns `{"error": ...}`,
modelled as `none` at the delta level. -/
structure WebsiteContent where
  description : String
  content : String
  images : List String
  deriving DecidableEq

/-- One fetched source together with the outcomes of the external AI calls
made while processing it; the unit folded by `build_profile`'s source loop. -/
inductive ProfileDelta where
  | instagram (data : InstaData) (source : String) (skillsCall : AICallResult)
  | linkedin (data : LinkedInData) (bioCall : Option String)
  | website (result : Option WebsiteContent) (source : String) (skillsCall : AICallResult)
  | resume (file_path : String) (skillsCall : AICallResult)
  deriving DecidableEq

/-! ## Field normalization / per-source processing -/

/-- `str.replace("@", "")` for a single-character pattern: every `'@'` in the
string is deleted. -/
def removeAts (s : String) : String := ⟨s.data.filter (fun c => c ≠ '@')⟩

/-- Python `f"{x}"` rendering of a value that may be `None`. -/
def pyStr : Option String → String
  | none => "None"
  | some s => s

/-- `f"{exp.get('title')} at {exp.get('company')}: {exp.get('description', '')}"`. -/
def experienceLine (e : Experience) : String :=
  pyStr e.title ++ " at " ++ pyStr e.company ++ ": " ++ e.description.getD ""

/-- The `experience_text` joined in `_process_linkedin_data`. -/
def experienceText (l : List Experience) : String :=
  String.intercalate " " (l.map experienceLine)

/-- The portfolio item built from one Instagram post. -/
def instaCandidate (p : InstaPost) : PortfolioItem :=
  { title := "Instagram Post - " ++ toString (p.likes.getD 0) ++ " likes"
    description := p.caption.getD ""
    media_type := p.media.getD "image"
    media_url := p.url
    tags := extract_hashtags (p.caption.getD "")
    source := "instagram"
    ai_analysis := none }

/-- The `combined_text` (`f"{bio_text} {captions}"`) handed to
`extract_skills`; it always contains the separating space. -/
def instaCombinedText (d : InstaData) : String :=
  d.bio.getD "" ++ " " ++ String.intercalate " " (d.recent_posts.map (fun p => p.caption.getD ""))

/-- `_process_instagram_data`: set `name` only when the current value is
falsy (to the display name with every `'@'` removed), unconditionally write
`social_links["instagram"]`, extend `skills` with the skill-extraction
outcome when `combined_text` is truthy, and append one item per post. -/
def process_instagram_data (p : Profile) (d : InstaData) (source : String)
    (skillsCall : AICallResult) : Profile :=
  { p with
    name := if isFalsy p.name then some (removeAts (d.name.getD "")) else p.name
    social_links := setLink p.social_links "instagram" source
    skills := if instaCombinedText d ≠ "" then p.skills ++ extract_skills skillsCall else p.skills
    portfolio_items := p.portfolio_items ++ d.recent_posts.map instaCandidate }

/-- `_process_linkedin_data`: `name` only when falsy; `profession` and
`location` assigned unconditionally (even to `None`); `skills` extended
verbatim; `bio` overwritten with the generated text whenever
`experience_text` is truthy. -/
def process_linkedin_data (p : Profile) (d : LinkedInData) (bioCall : Option String) : Profile :=
  { p with
    name := if isFalsy p.name then d.name else p.name
    profession := d.headline
    location := d.location
    skills := p.skills ++ d.skills
    bio := if experienceText d.experience ≠ "" then some (generate_bio bioCall) else p.bio }

/-- The portfolio item built from one extracted website image URL. -/
def websiteCandidate (description : String) (url : String) : PortfolioItem :=
  { title := "Website Image"
    description := description
    media_type := "image"
    media_url := some url
    tags := []
    source := "website"
    ai_analysis := none }

/-- `_process_website_data`: a failed scrape (`"error" in data`) is a no-op;
otherwise write `social_links["website"]`, extend skills when the content is
truthy, and append one image item per extracted URL. -/
def process_website_data (p : Profile) (result : Option WebsiteContent) (source : String)
    (skillsCall : AICallResult) : Profile :=
  match result with
  | none => p
  | some w =>
    { p with
      social_links := setLink p.social_links "website" source
      skills := if w.content ≠ "" then p.skills ++ extract_skills skillsCall else p.skills
      portfolio_items := p.portfolio_items ++ w.images.map (websiteCandidate w.description) }

/-! ## Resume processing -/

/-- The fixed `mock_resume_text` literal of `_process_resume_data`, with the
indentation of the Python triple-quoted string. -/
def mock_resume_text : String :=
  "\n        John Doe - Creative Director & Photographer\n        Email: john@example.com\n        Phone: (555) 123-4567\n        \n        Experience:\n        - Senior Photographer at Creative Studio (2021-Present)\n        - Freelance Designer (2019-2021)\n        \n        Skills: Photography, Adobe Creative Suite, Video Editing, Brand Design\n        "

/-- What follows the first occurrence of `pat` in the character list
(`re.search` scans left to right); `none` when `pat` does not occur. -/
def afterFirst (pat : List Char) : List Char → Option (List Char)
  | [] => none
  | c :: rest =>
    if pat.isPrefixOf (c :: rest) then some (List.drop pat.length (c :: rest))
    else afterFirst pat rest

/-- Model of `re.search(r'Email:\s*([^\s\n]+)', text)`: after the first
`Email:`, skip the whitespace run, then capture the maximal run of
non-whitespace characters (a match needs at least one). -/
def emailField (text : String) : Option String :=
  match afterFirst "Email:".toList text.toList with
  | none => none
  | some rest =>
    let tok := (rest.dropWhile Char.isWhitespace).takeWhile (fun c => !c.isWhitespace)
    if tok.isEmpty then none else some tok.asString

/-- Model of `re.search(r'Phone:\s*([^\n]+)', text)` followed by `.strip()`
on the captured group: after the first `Phone:`, skip the maximal whitespace
run, capture the rest of the line, trim it. (On the fixed resume text the
regex needs no backtracking, so maximal munch agrees with `re`.) -/
def phoneField (text : String) : Option String :=
  match afterFirst "Phone:".toList text.toList with
  | none => none
  | some rest =>
    let line := (rest.dropWhile Char.isWhitespace).takeWhile (fun c => c ≠ '\n')
    if line.isEmpty then none else some (stripChars line).asString

/-- `_process_resume_data`: the `file_path` argument is never read; the
labelled fields are extracted from the fixed mock text (written only when the
pattern matches), and skills are extended with the extraction outcome. -/
def process_resume_data (p : Profile) (file_path : String) (skillsCall : AICallResult) : Profile :=
  { p with
    email := match emailField mock_resume_text with
      | some e => some e
      | none => p.email
    phone := match phoneField mock_resume_text with
      | some ph => some ph
      | none => p.phone
    skills := p.skills ++ extract_skills skillsCall }

/-! ## The fold and the enrichment pass -/

/-- One iteration of the source loop in `build_profile`: dispatch on the
source type and merge the processed result into `profile_data`. -/
def foldDelta (p : Profile) : ProfileDelta → Profile
  | .instagram d source skillsCall => process_instagram_data p d source skillsCall
  | .linkedin d bioCall => process_linkedin_data p d bioCall
  | .website result source skillsCall => process_website_data p result source skillsCall
  | .resume file_path skillsCall => process_resume_data p file_path skillsCall

/-- The whole source loop, folding the deltas in input order. -/
def foldDeltas (p : Profile) (ds : List ProfileDelta) : Profile := ds.foldl foldDelta p

/-- The hardcoded mock analysis dict of `_enhance_with_ai`, rendered by
`json.dumps` (no AI call is made for it). -/
def mockAnalysis : String :=
  "\x7b\"content_type\": \"photography\", \"subjects\": [\"portrait\", \"professional\"], \"quality\": \"high\", \"tags\": [\"professional\", \"portrait\", \"creative\"], \"category\": \"photography\"\x7d"

/-- The `tags` list of the hardcoded mock analysis. -/
def mockTags : List String := ["professional", "portrait", "creative"]

/-- The per-item body of the enhancement loop: for an image item with a
truthy `media_url`, store the mock analysis as `ai_analysis` and extend the
item's tags with the analysis tags; other items are untouched. -/
def enhanceItem (it : PortfolioItem) : PortfolioItem :=
  if it.media_type = "image" ∧ isFalsy it.media_url = false then
    { it with ai_analysis := some mockAnalysis, tags := it.tags ++ mockTags }
  else it

/-- `_enhance_with_ai`: deduplicate skills (`list(set(...))`; the set order
is unspecified in Python, so only the underlying set is meaningful), backfill
`bio` when it is falsy and skills are non-empty (`bioCall` is the outcome of
that `generate_bio` call), then run the mock image analysis over every item. -/
def enhance_with_ai (p : Profile) (bioCall : Option String) : Profile :=
  let p1 := { p with skills := p.skills.dedup }
  let p2 := if isFalsy p1.bio ∧ p1.skills ≠ [] then
      { p1 with bio := some (generate_bio bioCall) } else p1
  { p2 with portfolio_items := p2.portfolio_items.map enhanceItem }

/-! ## Website image extraction and the run entry point -/

/-- Python `str.startswith(pat)`. -/
def pyStartsWith (pat : String) (s : String) : Bool := pat.data.isPrefixOf s.data

/-- `WebsiteScraper._extract_images`: over the first 10 `<img src>` matches,
keep absolute URLs, resolve root-relative ones against the page's domain, and
drop the rest. -/
def extract_images (imgs : List String) (base_domain : String) : List String :=
  (imgs.take 10).filterMap (fun img =>
    if pyStartsWith "http" img then some img
    else if pyStartsWith "/" img then some ("https://" ++ base_domain ++ img)
    else none)

/-- The body of the `/import-profile` request (`ProfileImportRequest`). -/
structure ProfileImportRequest where
  user_id : String
  sources : List String
  source_types : List String
  deriving DecidableEq

/-- `ProfileBuilderService.build_profile`. The scrapers and the AI are
external: `fetchDelta source source_type` is the processed contribution of
one `(source, source_type)` pair, `none` when the source type matches no
branch or its processing raised (caught and logged, loop continues).
`zip` truncates to the shorter of the two sequences, as in Python; no
validation of `user_id` or of the sequence lengths is performed. Persistence
(`_save_profile`) stores the returned profile unchanged. -/
def build_profile (fetchDelta : String → String → Option ProfileDelta)
    (enhanceBioCall : Option String) (req : ProfileImportRequest) : Profile :=
  let folded := (req.sources.zip req.source_types).foldl
    (fun p st => match fetchDelta st.1 st.2 with
      | some d => foldDelta p d
      | none => p) (initProfile req.user_id)
  enhance_with_ai folded enhanceBioCall

/-! ## Write views of the fold

For each profile field, what a given delta writes into it: `none` means the
delta does not touch the field, `some v` that it assigns `v` unconditionally.
`name` is the one guarded field and gets its own treatment below. -/

/-- `profession` is written (unconditionally, possibly to `None`) by every
career delta. -/
def professionWrite : ProfileDelta → Option (Option String)
  | .linkedin d _ => some d.headline
  | _ => none

/-- `location` is written (unconditionally, possibly to `None`) by every
career delta. -/
def locationWrite : ProfileDelta → Option (Option String)
  | .linkedin d _ => some d.location
  | _ => none

/-- `email` is written by every resume delta whose labelled-field pattern
matches the fixed mock text (it always does). -/
def emailWrite : ProfileDelta → Option (Option String)
  | .resume _ _ => (emailField mock_resume_text).map some
  | _ => none

/-- `phone` is written by every resume delta whose labelled-field pattern
matches the fixed mock text (it always does). -/
def phoneWrite : ProfileDelta → Option (Option String)
  | .resume _ _ => (phoneField mock_resume_text).map some
  | _ => none

/-- `bio` is written (unconditionally overwriting) by every career delta
with a truthy experience text. -/
def bioWrite : ProfileDelta → Option (Option String)
  | .linkedin d bioCall =>
    if experienceText d.experience ≠ "" then some (some (generate_bio bioCall)) else none
  | _ => none

/-- The (possibly `None`-valued) name a delta assigns when the profile's
name is still falsy; `none` when the delta never touches `name`. -/
def nameWrite : ProfileDelta → Option (Option String)
  | .instagram d _ _ => some (some (removeAts (d.name.getD "")))
  | .linkedin d _ => some d.name
  | _ => none

/-- The delta's name offer when that offer is truthy (not `None`, not empty);
only such an offer can fill `name` for good. -/
def truthyNameOffer (d : ProfileDelta) : Option String :=
  match nameWrite d with
  | some (some s) => if s = "" then none else some s
  | _ => none

theorem foldDelta_profession (p : Profile) (d : ProfileDelta) :
    (foldDelta p d).profession = (professionWrite d).getD p.profession := by
  cases d with
  | website r s c => cases r <;> rfl
  | instagram d s c => rfl
  | linkedin d b => rfl
  | resume f c => rfl

theorem foldDelta_location (p : Profile) (d : ProfileDelta) :
    (foldDelta p d).location = (locationWrite d).getD p.location := by
  cases d with
  | website r s c => cases r <;> rfl
  | instagram d s c => rfl
  | linkedin d b => rfl
  | resume f c => rfl

theorem foldDelta_email (p : Profile) (d : ProfileDelta) :
    (foldDelta p d).email = (emailWrite d).getD p.email := by
  cases d with
  | website r s c => cases r <;> rfl
  | instagram d s c => rfl
  | linkedin d b => rfl
  | resume f c =>
    show (process_resume_data p f c).email = _
    unfold process_resume_data emailWrite
    cases emailField mock_resume_text <;> rfl

theorem foldDelta_phone (p : Profile) (d : ProfileDelta) :
    (foldDelta p d).phone = (phoneWrite d).getD p.phone := by
  cases d with
  | website r s c => cases r <;> rfl
  | instagram d s c => rfl
  | linkedin d b => rfl
  | resume f c =>
    show (process_resume_data p f c).phone = _
    unfold process_resume_data phoneWrite
    cases phoneField mock_resume_text <;> rfl

theorem foldDelta_bio (p : Profile) (d : ProfileDelta) :
    (foldDelta p d).bio = (bioWrite d).getD p.bio := by
  cases d with
  | website r s c => cases r <;> rfl
  | instagram d s c => rfl
  | resume f c => rfl
  | linkedin d b =>
    show (process_linkedin_data p d b).bio = _
    unfold process_linkedin_data bioWrite
    by_cases h : experienceText d.experience ≠ "" <;> simp [h]

/-- Unconditionally written fields are last-write-wins: projecting the fold
yields the value of the last write in the sequence, or the initial value when
no delta wrote. -/
theorem foldDeltas_lastWrite {α : Type} (f : Profile → α) (w : ProfileDelta → Option α)
    (hf : ∀ p d, f (foldDelta p d) = (w d).getD (f p)) :
    ∀ (ds : List ProfileDelta) (p : Profile),
      f (foldDeltas p ds) = (ds.reverse.findSome? w).getD (f p) := by
  intro ds
  induction ds with
  | nil => intro p; simp [foldDeltas]
  | cons d t ih =>
    intro p
    have h1 : foldDeltas p (d :: t) = foldDeltas (foldDelta p d) t := rfl
    rw [h1, ih (foldDelta p d), hf p d, List.reverse_cons, List.findSome?_append]
    cases h2 : t.reverse.findSome? w with
    | some v => simp [h2, Option.or]
    | none =>
      cases h3 : w d <;>
        simp [h2, h3, Option.or, List.findSome?_cons, List.findSome?_nil]

/-! ## Social links: per-key last-write-wins (C6) -/

/-- The social-link value a delta writes for key `k`: Instagram deltas write
`social_links["instagram"]`, successfully scraped website deltas write
`social_links["website"]`; nothing else touches the mapping. -/
def linkOffer (d : ProfileDelta) (k : String) : Option String :=
  match d with
  | .instagram _ source _ => if "instagram" = k then some source else none
  | .website (some _) source _ => if "website" = k then some source else none
  | _ => none

theorem getLink_setLink (l : List (String × String)) (k k2 v : String) :
    getLink k (setLink l k2 v) = if k2 = k then some v else getLink k l := by
  induction l with
  | nil => by_cases h : k2 = k <;> simp [setLink, getLink, h]
  | cons hd t ih =>
    obtain ⟨k3, v3⟩ := hd
    by_cases h1 : k3 = k2
    · subst h1
      by_cases h2 : k3 = k <;> simp [setLink, getLink, h2]
    · by_cases h3 : k3 = k
      · subst h3
        have h2 : ¬k2 = k3 := fun hh => h1 hh.symm
        simp [setLink, getLink, h1, h2]
      · simp [setLink, getLink, h1, h3, ih]

theorem foldDelta_getLink (k : String) (p : Profile) (d : ProfileDelta) :
    getLink k (foldDelta p d).social_links
      = ((linkOffer d k).map some).getD (getLink k p.social_links) := by
  cases d with
  | instagram da s c =>
    show getLink k (setLink p.social_links "instagram" s) = _
    rw [getLink_setLink]
    unfold linkOffer
    by_cases h : "instagram" = k <;> simp [h]
  | linkedin da b => rfl
  | resume f c => rfl
  | website r s c =>
    cases r with
    | none => rfl
    | some w =>
      show getLink k (setLink p.social_links "website" s) = _
      rw [getLink_setLink]
      unfold linkOffer
      by_cases h : "website" = k <;> simp [h]

theorem findSome?_map_some {α β : Type} (g : α → Option β) (l : List α) :
    (l.findSome? (fun a => (g a).map some)).getD none = l.findSome? g := by
  induction l with
  | nil => simp
  | cons a t ih => cases h : g a <;> simp [List.findSome?_cons, h, ih]

/-- C6: for every delta sequence and every key, the folded profile's
`social_links` value for that key is the value written by the last delta in
input order that set that key (last-write-wins per key), independent of
writes to other keys; `none` when no delta set it. -/
theorem social_links_last_write_wins (ds : List ProfileDelta) (u k : String) :
    getLink k (foldDeltas (initProfile u) ds).social_links
      = ds.reverse.findSome? (fun d => linkOffer d k) := by
  have h := foldDeltas_lastWrite (fun p => getLink k p.social_links)
    (fun d => (linkOffer d k).map some) (fun p d => foldDelta_getLink k p d) ds (initProfile u)
  rw [h]
  exact findSome?_map_some _ _

/-! ## Name: guarded first-non-empty-wins (C1) -/

theorem foldDelta_name_keep (p : Profile) (d : ProfileDelta) (h : isFalsy p.name = false) :
    (foldDelta p d).name = p.name := by
  cases d with
  | instagram da s c =>
    show (process_instagram_data p da s c).name = p.name
    unfold process_instagram_data
    simp [h]
  | linkedin da b =>
    show (process_linkedin_data p da b).name = p.name
    unfold process_linkedin_data
    simp [h]
  | website r s c => cases r <;> rfl
  | resume f c => rfl

theorem foldDelta_name_set (p : Profile) (d : ProfileDelta) (h : isFalsy p.name = true) :
    (foldDelta p d).name = (nameWrite d).getD p.name := by
  cases d with
  | instagram da s c =>
    show (process_instagram_data p da s c).name = _
    unfold process_instagram_data nameWrite
    simp [h]
  | linkedin da b =>
    show (process_linkedin_data p da b).name = _
    unfold process_linkedin_data nameWrite
    simp [h]
  | website r s c => cases r <;> rfl
  | resume f c => rfl

theorem truthyNameOffer_none_write (d : ProfileDelta) (h : truthyNameOffer d = none) :
    ∀ v, nameWrite d = some v → isFalsy v = true := by
  intro v hv
  unfold truthyNameOffer at h
  rw [hv] at h
  match v, h with
  | none, _ => rfl
  | some s, h =>
    by_cases hs : s = ""
    · simp [isFalsy, hs]
    · simp [hs] at h

theorem truthyNameOffer_some_write (d : ProfileDelta) (v : String)
    (h : truthyNameOffer d = some v) : nameWrite d = some (some v) ∧ v ≠ "" := by
  unfold truthyNameOffer at h
  match hw : nameWrite d with
  | none => rw [hw] at h; exact absurd h (by simp)
  | some none => rw [hw] at h; exact absurd h (by simp)
  | some (some s) =>
    rw [hw] at h
    by_cases hs : s = ""
    · simp [hs] at h
    · simp [hs] at h
      subst h
      exact ⟨rfl, hs⟩

theorem foldDelta_name_falsy (p : Profile) (d : ProfileDelta)
    (hp : isFalsy p.name = true) (hd : truthyNameOffer d = none) :
    isFalsy (foldDelta p d).name = true := by
  rw [foldDelta_name_set p d hp]
  cases hw : nameWrite d with
  | none => simpa using hp
  | some v => simpa using truthyNameOffer_none_write d hd v hw

theorem foldDeltas_name_keep (ds : List ProfileDelta) (p : Profile)
    (h : isFalsy p.name = false) : (foldDeltas p ds).name = p.name := by
  induction ds generalizing p with
  | nil => rfl
  | cons d t ih =>
    have h1 : foldDeltas p (d :: t) = foldDeltas (foldDelta p d) t := rfl
    have h2 := foldDelta_name_keep p d h
    rw [h1, ih (foldDelta p d) (by rw [h2]; exact h), h2]

theorem foldDeltas_name_first (ds : List ProfileDelta) (p : Profile) (v : String)
    (hp : isFalsy p.name = true) (h : ds.findSome? truthyNameOffer = some v) :
    (foldDeltas p ds).name = some v := by
  induction ds generalizing p with
  | nil => rw [List.findSome?_nil] at h; exact absurd h (by simp)
  | cons d t ih =>
    rw [List.findSome?_cons] at h
    cases hd : truthyNameOffer d with
    | some v2 =>
      rw [hd] at h
      have hv : v2 = v := by simpa using h
      subst hv
      obtain ⟨hw, hne⟩ := truthyNameOffer_some_write d v2 hd
      have hname : (foldDelta p d).name = some v2 := by
        rw [foldDelta_name_set p d hp, hw]; rfl
      have hfalse : isFalsy (foldDelta p d).name = false := by
        rw [hname]; simp [isFalsy, hne]
      have h3 : foldDeltas p (d :: t) = foldDeltas (foldDelta p d) t := rfl
      rw [h3, foldDeltas_name_keep t (foldDelta p d) hfalse, hname]
    | none =>
      rw [hd] at h
      have h3 : foldDeltas p (d :: t) = foldDeltas (foldDelta p d) t := rfl
      rw [h3]
      exact ih (foldDelta p d) (foldDelta_name_falsy p d hp hd) h

/-- C1 (amended): of the scalar identity fields only `name` is
first-non-empty-wins — it equals the first truthy name offered by any delta.
`profession` and `location` are assigned unconditionally by every career
delta, `email` and `phone` by every resume delta, and `bio` by every career
delta with a truthy experience text, so for those five fields the *last*
offering delta wins (the last write, or the unset initial value when no
delta wrote). -/
theorem scalar_fields_conflict_resolution (ds : List ProfileDelta) (u : String) :
    (∀ v, ds.findSome? truthyNameOffer = some v →
        (foldDeltas (initProfile u) ds).name = some v)
    ∧ (foldDeltas (initProfile u) ds).profession
        = (ds.reverse.findSome? professionWrite).getD none
    ∧ (foldDeltas (initProfile u) ds).location
        = (ds.reverse.findSome? locationWrite).getD none
    ∧ (foldDeltas (initProfile u) ds).email
        = (ds.reverse.findSome? emailWrite).getD none
    ∧ (foldDeltas (initProfile u) ds).phone
        = (ds.reverse.findSome? phoneWrite).getD none
    ∧ (foldDeltas (initProfile u) ds).bio
        = (ds.reverse.findSome? bioWrite).getD none := by
  refine ⟨fun v h => foldDeltas_name_first ds (initProfile u) v rfl h, ?_, ?_, ?_, ?_, ?_⟩
  · exact foldDeltas_lastWrite (fun p => p.profession) professionWrite foldDelta_profession ds _
  · exact foldDeltas_lastWrite (fun p => p.location) locationWrite foldDelta_location ds _
  · exact foldDeltas_lastWrite (fun p => p.email) emailWrite foldDelta_email ds _
  · exact foldDeltas_lastWrite (fun p => p.phone) phoneWrite foldDelta_phone ds _
  · exact foldDeltas_lastWrite (fun p => p.bio) bioWrite foldDelta_bio ds _

/-- Witness for C1's theorem at a concrete two-delta sequence: the first
truthy name offer ("Jane", from the first career delta) wins. -/
theorem scalar_fields_conflict_resolution_witness :
    (foldDeltas (initProfile "u1")
        [.linkedin { name := some "Jane", headline := some "A", location := none,
                     skills := [], experience := [] } none,
         .linkedin { name := some "Other", headline := some "B", location := none,
                     skills := [], experience := [] } none]).name = some "Jane" :=
  (scalar_fields_conflict_resolution
      [.linkedin { name := some "Jane", headline := some "A", location := none,
                   skills := [], experience := [] } none,
       .linkedin { name := some "Other", headline := some "B", location := none,
                   skills := [], experience := [] } none] "u1").1 "Jane" (by decide)

/-- Counterexample to C1 as stated: `profession` is a scalar identity field,
yet a second career delta overwrites the value the first one set, so it is
not first-non-empty-wins. -/
theorem scalar_fields_overwrite_counterexample :
    (foldDeltas (initProfile "u")
        [.linkedin { name := none, headline := some "Director", location := none,
                     skills := [], experience := [] } none]).profession = some "Director"
    ∧ (foldDeltas (initProfile "u")
        [.linkedin { name := none, headline := some "Director", location := none,
                     skills := [], experience := [] } none,
         .linkedin { name := none, headline := some "Editor", location := none,
                     skills := [], experience := [] } none]).profession = some "Editor"
    ∧ ("Editor" : String) ≠ "Director" :=
  ⟨by decide, by decide, by decide⟩

/-! ## Portfolio items: append-only, order-preserving (C5) -/

/-- The portfolio candidates one delta contributes, in the delta's internal
order: one item per Instagram post, one per extracted website image; career
and resume deltas contribute none, as does a failed website scrape. -/
def deltaCandidates : ProfileDelta → List PortfolioItem
  | .instagram d _ _ => d.recent_posts.map instaCandidate
  | .website (some w) _ _ => w.images.map (websiteCandidate w.description)
  | _ => []

theorem foldDelta_portfolio (p : Profile) (d : ProfileDelta) :
    (foldDelta p d).portfolio_items = p.portfolio_items ++ deltaCandidates d := by
  cases d with
  | instagram da s c => rfl
  | linkedin da b => simp [foldDelta, process_linkedin_data, deltaCandidates]
  | resume f c => simp [foldDelta, process_resume_data, deltaCandidates]
  | website r s c =>
    cases r with
    | none => simp [foldDelta, process_website_data, deltaCandidates]
    | some w => rfl

theorem foldDeltas_portfolio (ds : List ProfileDelta) (p : Profile) :
    (foldDeltas p ds).portfolio_items
      = p.portfolio_items ++ (ds.map deltaCandidates).flatten := by
  induction ds generalizing p with
  | nil => simp [foldDeltas]
  | cons d t ih =>
    have h1 : foldDeltas p (d :: t) = foldDeltas (foldDelta p d) t := rfl
    rw [h1, ih (foldDelta p d), foldDelta_portfolio]
    simp

theorem enhance_portfolio (p : Profile) (b : Option String) :
    (enhance_with_ai p b).portfolio_items = p.portfolio_items.map enhanceItem := by
  simp only [enhance_with_ai]
  split <;> rfl

theorem enhance_skills (p : Profile) (b : Option String) :
    (enhance_with_ai p b).skills = p.skills.dedup := by
  simp only [enhance_with_ai]
  split <;> rfl

theorem enhance_bio (p : Profile) (b : Option String) :
    (enhance_with_ai p b).bio
      = if isFalsy p.bio = true ∧ p.skills.dedup ≠ []
        then some (generate_bio b) else p.bio := by
  simp only [enhance_with_ai]
  by_cases hc : isFalsy p.bio = true ∧ p.skills.dedup ≠ []
  · rw [if_pos hc, if_pos hc]
  · rw [if_neg hc, if_neg hc]

/-- Everything about an item except its `tags` and `ai_analysis` — the parts
the enrichment pass may not change. -/
def itemCore (it : PortfolioItem) : String × String × String × Option String × String :=
  (it.title, it.description, it.media_type, it.media_url, it.source)

theorem itemCore_enhanceItem (it : PortfolioItem) :
    itemCore (enhanceItem it) = itemCore it := by
  unfold enhanceItem
  split <;> rfl

/-- C5: the folded portfolio is exactly the concatenation of each delta's
candidates in input order; the enrichment pass removes nothing and changes
nothing but the annotation fields — the enriched list has the same length
and, item for item, the same title, description, media type, media URL and
source provenance. -/
theorem portfolio_append_only (ds : List ProfileDelta) (u : String) (b : Option String) :
    (foldDeltas (initProfile u) ds).portfolio_items = (ds.map deltaCandidates).flatten
    ∧ (enhance_with_ai (foldDeltas (initProfile u) ds) b).portfolio_items.length
        = (ds.map deltaCandidates).flatten.length
    ∧ (enhance_with_ai (foldDeltas (initProfile u) ds) b).portfolio_items.map itemCore
        = (ds.map deltaCandidates).flatten.map itemCore := by
  have h1 : (foldDeltas (initProfile u) ds).portfolio_items
      = (ds.map deltaCandidates).flatten := by
    rw [foldDeltas_portfolio]; rfl
  refine ⟨h1, ?_, ?_⟩
  · rw [enhance_portfolio, h1, List.length_map]
  · rw [enhance_portfolio, h1, List.map_map]
    exact List.map_congr_left (fun it _ => itemCore_enhanceItem it)

/-! ## Skill deduplication (C4) -/

/-- C4: for every run of the entry point — any fetch outcomes, any AI
outcomes, any request — the returned profile's skills list holds no
duplicate string (case-sensitive), because the enrichment pass replaces it
with its deduplicated form and nothing after that extends it. -/
theorem skills_nodup_after_enrichment (fetch : String → String → Option ProfileDelta)
    (bioCall : Option String) (req : ProfileImportRequest) :
    (build_profile fetch bioCall req).skills.Nodup := by
  unfold build_profile
  rw [enhance_skills]
  exact List.nodup_dedup _

/-! ## All AI calls failing (C3) -/

/-- Every AI-call outcome carried by the delta is a failure. -/
def aiFailed : ProfileDelta → Bool
  | .instagram _ _ .failure => true
  | .instagram _ _ _ => false
  | .linkedin _ none => true
  | .linkedin _ _ => false
  | .website _ _ .failure => true
  | .website _ _ _ => false
  | .resume _ .failure => true
  | .resume _ _ => false

/-- The delta makes a bio-generation call during the fold: a career delta
with a truthy experience text. -/
def triggersBio : ProfileDelta → Bool
  | .linkedin d _ => decide (experienceText d.experience ≠ "")
  | _ => false

theorem findSome?_bioWrite_all_failed (ds : List ProfileDelta)
    (h : ∀ d ∈ ds, aiFailed d = true) :
    ds.findSome? bioWrite
      = if ds.any triggersBio then some (some fallbackBio) else none := by
  induction ds with
  | nil => simp
  | cons d t ih =>
    have hd := h d (List.mem_cons_self d t)
    have ht : ∀ x ∈ t, aiFailed x = true := fun x hx => h x (List.mem_cons_of_mem d hx)
    rw [List.findSome?_cons, List.any_cons]
    cases d with
    | linkedin dd b =>
      cases b with
      | none =>
        by_cases he : experienceText dd.experience ≠ ""
        · simp [bioWrite, triggersBio, he, generate_bio]
        · simp [bioWrite, triggersBio, he, ih ht]
      | some s => simp [aiFailed] at hd
    | instagram da s c => simp [bioWrite, triggersBio, ih ht]
    | website r s c => simp [bioWrite, triggersBio, ih ht]
    | resume f c => simp [bioWrite, triggersBio, ih ht]

theorem candidate_ai_analysis_none (d : ProfileDelta) :
    ∀ it ∈ deltaCandidates d, it.ai_analysis = none := by
  intro it hit
  cases d with
  | instagram da s c =>
    simp only [deltaCandidates, List.mem_map] at hit
    obtain ⟨post, _, hpost⟩ := hit
    rw [← hpost]; rfl
  | linkedin da b => simp [deltaCandidates] at hit
  | resume f c => simp [deltaCandidates] at hit
  | website r s c =>
    cases r with
    | none => simp [deltaCandidates] at hit
    | some w =>
      simp only [deltaCandidates, List.mem_map] at hit
      obtain ⟨url, _, hurl⟩ := hit
      rw [← hurl]; rfl

/-- C3 (amended): when every AI call of the run fails, the run still
completes; `bio` is the fixed fallback sentence exactly when something
triggered bio generation — a career delta with experience during the fold,
or non-empty skills at enrichment — and stays unset otherwise.  But
`ai_analysis` is NOT left unset: the enrichment pass annotates every image
item that has a truthy media URL with the hardcoded mock analysis (no AI
call is involved), and leaves only the other items unannotated. -/
theorem all_ai_failed_run (ds : List ProfileDelta) (u : String)
    (h : ∀ d ∈ ds, aiFailed d = true) :
    (enhance_with_ai (foldDeltas (initProfile u) ds) none).bio
      = (if ds.any triggersBio ∨ (foldDeltas (initProfile u) ds).skills ≠ []
         then some fallbackBio else none)
    ∧ (∀ it ∈ (foldDeltas (initProfile u) ds).portfolio_items, it.ai_analysis = none)
    ∧ (enhance_with_ai (foldDeltas (initProfile u) ds) none).portfolio_items.map
        (fun it => it.ai_analysis)
      = (foldDeltas (initProfile u) ds).portfolio_items.map
        (fun it => if it.media_type = "image" ∧ isFalsy it.media_url = false
                   then some mockAnalysis else none) := by
  have hbio : (foldDeltas (initProfile u) ds).bio
      = if ds.any triggersBio then some fallbackBio else none := by
    rw [foldDeltas_lastWrite (fun p => p.bio) bioWrite foldDelta_bio ds (initProfile u)]
    rw [findSome?_bioWrite_all_failed ds.reverse
      (fun d hd => h d (List.mem_reverse.mp hd)), List.any_reverse]
    split <;> rfl
  have hnone : ∀ it ∈ (foldDeltas (initProfile u) ds).portfolio_items,
      it.ai_analysis = none := by
    rw [foldDeltas_portfolio]
    intro it hit
    rw [show (initProfile u).portfolio_items = [] from rfl, List.nil_append] at hit
    rw [List.mem_flatten] at hit
    obtain ⟨l, hl, hitl⟩ := hit
    rw [List.mem_map] at hl
    obtain ⟨d, _, hdl⟩ := hl
    exact candidate_ai_analysis_none d it (hdl ▸ hitl)
  refine ⟨?_, hnone, ?_⟩
  · rw [enhance_bio]
    by_cases hany : ds.any triggersBio = true
    · have hfb : (foldDeltas (initProfile u) ds).bio = some fallbackBio := by
        rw [hbio, if_pos hany]
      have hnotc : ¬(isFalsy (foldDeltas (initProfile u) ds).bio = true
          ∧ (foldDeltas (initProfile u) ds).skills.dedup ≠ []) := by
        rw [hfb]; intro hcon; exact absurd hcon.1 (by decide)
      rw [if_neg hnotc, if_pos (Or.inl hany)]
      exact hfb
    · have hany2 : ds.any triggersBio = false := by
        revert hany; cases ds.any triggersBio <;> simp
      have hb : (foldDeltas (initProfile u) ds).bio = none := by
        rw [hbio, hany2]; simp
      by_cases hsk : (foldDeltas (initProfile u) ds).skills = []
      · have hLc : ¬(isFalsy (foldDeltas (initProfile u) ds).bio = true
            ∧ (foldDeltas (initProfile u) ds).skills.dedup ≠ []) := by
          simp [hsk]
        rw [if_neg hLc, if_neg (by simp [hany2, hsk])]
        exact hb
      · have hLc : isFalsy (foldDeltas (initProfile u) ds).bio = true
            ∧ (foldDeltas (initProfile u) ds).skills.dedup ≠ [] :=
          ⟨by rw [hb]; rfl, by simpa [List.dedup_eq_nil] using hsk⟩
        rw [if_pos hLc, if_pos (Or.inr hsk)]
        rfl
  · rw [enhance_portfolio, List.map_map]
    exact List.map_congr_left (fun it hit => by
      show (enhanceItem it).ai_analysis = _
      unfold enhanceItem
      split
      · rfl
      · exact hnone it hit)

/-! ## Worked inputs shared by the concrete runs -/

/-- A concrete Instagram post used in the worked examples. -/
def demoPost : InstaPost :=
  { url := some "https://example.com/post1.jpg"
    caption := some "Golden hour #goldenhour"
    likes := some 234
    media := some "image" }

/-- A concrete delta sequence on which every AI call fails: one Instagram
source (skill extraction fails) and one career source with a verbatim skill
list, no experience, and a failing bio call. -/
def demoFailDeltas : List ProfileDelta :=
  [ .instagram { name := some "@jane", bio := some "photos", recent_posts := [demoPost] }
      "https://instagram.com/jane" .failure
  , .linkedin { name := none, headline := some "Photographer", location := none,
                skills := ["Photography"], experience := [] } none ]

/-- Witness for C3's theorem at the concrete all-AI-failing sequence. -/
theorem all_ai_failed_run_witness :
    (enhance_with_ai (foldDeltas (initProfile "u2") demoFailDeltas) none).bio
      = (if demoFailDeltas.any triggersBio
            ∨ (foldDeltas (initProfile "u2") demoFailDeltas).skills ≠ []
         then some fallbackBio else none) :=
  (all_ai_failed_run demoFailDeltas "u2" (by decide)).1

set_option maxRecDepth 8192 in
/-- Counterexample to C3 as stated: here every AI call fails and the bio is
the fixed fallback, yet the run's single image item *does* end up with
`ai_analysis` set (to the hardcoded mock analysis) — it is not left unset. -/
theorem all_ai_failed_analysis_counterexample :
    demoFailDeltas.all aiFailed = true
    ∧ (enhance_with_ai (foldDeltas (initProfile "u3") demoFailDeltas) none).bio
        = some fallbackBio
    ∧ (enhance_with_ai (foldDeltas (initProfile "u3") demoFailDeltas) none).portfolio_items.map
        (fun it => it.ai_analysis) = [some mockAnalysis] :=
  ⟨by decide, by decide, by decide⟩

/-! ## Run entry point performs no validation (C2) -/

/-- The fetch oracle of the entry-point examples: an Instagram source kind
resolves to a fixed delta (with failing skill extraction), anything else
contributes nothing. -/
def demoFetch : String → String → Option ProfileDelta := fun source stype =>
  if stype = "instagram"
  then some (.instagram { name := some "@jane", bio := none, recent_posts := [demoPost] }
        source .failure)
  else none

/-- C2 (the claimed `InvalidRequest` validation does not exist in the code):
with `user_id = ""` the run is not aborted — the source adapter runs, its
portfolio item is imported, and the profile completes under the empty user
id; with sequences of different lengths the run also completes, `zip`
silently truncating to the shorter sequence (two sources paired with one
kind process exactly one source). -/
theorem empty_user_id_not_rejected :
    (build_profile demoFetch none
        { user_id := "", sources := ["https://instagram.com/jane"],
          source_types := ["instagram"] }).user_id = ""
    ∧ (build_profile demoFetch none
        { user_id := "", sources := ["https://instagram.com/jane"],
          source_types := ["instagram"] }).portfolio_items.length = 1
    ∧ (build_profile demoFetch none
        { user_id := "mismatch", sources := ["a", "b"],
          source_types := ["instagram"] }).portfolio_items.length = 1 :=
  ⟨by decide, by decide, by decide⟩

/-! ## Skill extraction behavior (C7) -/

/-- Spec-side fallback: split the raw response text on commas, trim the
whitespace from each fragment, discard the empty fragments. -/
def commaFallbackSpec (t : String) : List String :=
  ((splitOnChar ',' t.data).map (fun l => (stripChars l).asString)).filter (fun s => s ≠ "")

/-- C7: `extract_skills` is total (never raises to its caller): a well-formed
JSON list response is returned verbatim; a malformed response falls back to
comma-splitting with trimming, which never yields an empty fragment; a
capability failure yields the empty sequence, as does the empty-text
response, whose comma-split collapses to nothing. -/
theorem extract_skills_behavior :
    extract_skills .failure = []
    ∧ (∀ t xs, extract_skills (.success t (.jsonList xs)) = xs)
    ∧ (∀ t, extract_skills (.success t .notJson) = commaFallbackSpec t)
    ∧ (∀ t, "" ∉ extract_skills (.success t .notJson))
    ∧ extract_skills (.success "" .notJson) = [] := by
  refine ⟨rfl, fun t xs => rfl, fun t => rfl, fun t hmem => ?_, by decide⟩
  have h := (List.mem_filter.mp hmem).2
  simp at h

/-! ## Name normalization (C8) -/

/-- Spec-side normalization: strip a leading `'@'` only. -/
def stripLeadingAt (s : String) : String :=
  match s.data with
  | '@' :: rest => rest.asString
  | _ => s

/-- Counterexample to C8 as stated: on the raw display name `"ja@ne"` the
code's normalization (`replace("@", "")`) yields `"jane"`, while stripping
only a leading platform prefix (there is none here) would leave `"ja@ne"` —
an interior character was altered. -/
theorem name_normalization_counterexample :
    (process_instagram_data (initProfile "u4")
        { name := some "ja@ne", bio := none, recent_posts := [] }
        "src" .failure).name = some "jane"
    ∧ stripLeadingAt "ja@ne" = "ja@ne"
    ∧ ("jane" : String) ≠ "ja@ne" :=
  ⟨by decide, by decide, by decide⟩

/-- C8 (amended): normalization removes *every* `'@'` of the raw display
name, not only a leading one: the result is exactly the raw name's
non-`'@'` characters in order (a sublist of the raw name — nothing else is
altered, added or reordered — with no `'@'` surviving); in particular
`"@jane"` normalizes to `"jane"`. -/
theorem name_normalization_removes_all_ats (raw : String) :
    (removeAts raw).data = raw.data.filter (fun c => c ≠ '@')
    ∧ (removeAts raw).data.Sublist raw.data
    ∧ '@' ∉ (removeAts raw).data
    ∧ removeAts "@jane" = "jane" := by
  refine ⟨rfl, List.filter_sublist _, fun hmem => ?_, by decide⟩
  have h := (List.mem_filter.mp hmem).2
  simp at h

/-! ## Website image cap (C9) -/

/-- C9: extracted website images are capped at 10 before they become
portfolio candidates; when the page yields 12 absolute candidate URLs, the
extraction returns exactly the first 10, and the website delta turns exactly
those into its portfolio items, one item per URL. -/
theorem website_images_capped (imgs : List String) (dom descr content source : String)
    (c : AICallResult) :
    (extract_images imgs dom).length ≤ 10
    ∧ ((∀ i ∈ imgs, pyStartsWith "http" i = true) → imgs.length = 12 →
        extract_images imgs dom = imgs.take 10
        ∧ (extract_images imgs dom).length = 10
        ∧ deltaCandidates
            (.website (some { description := descr, content := content,
                              images := extract_images imgs dom }) source c)
          = (imgs.take 10).map (websiteCandidate descr)) := by
  constructor
  · calc (extract_images imgs dom).length
        ≤ (imgs.take 10).length := List.length_filterMap_le _ _
      _ ≤ 10 := by rw [List.length_take]; exact min_le_left _ _
  · intro h hlen
    have habs : ∀ (l : List String), (∀ i ∈ l, pyStartsWith "http" i = true) →
        l.filterMap (fun img =>
          if pyStartsWith "http" img then some img
          else if pyStartsWith "/" img then some ("https://" ++ dom ++ img)
          else none) = l := by
      intro l hl
      induction l with
      | nil => rfl
      | cons a t ih =>
        have ha := hl a (List.mem_cons_self a t)
        have ht := fun i hi => hl i (List.mem_cons_of_mem a hi)
        simp [List.filterMap_cons, ha, ih ht]
    have heq : extract_images imgs dom = imgs.take 10 := by
      unfold extract_images
      exact habs (imgs.take 10) (fun i hi => h i (List.mem_of_mem_take hi))
    refine ⟨heq, ?_, ?_⟩
    · rw [heq, List.length_take, hlen]
      decide
    · rw [heq]
      rfl

/-- The 12 absolute image URLs of the worked cap example. -/
def twelveImages : List String :=
  ["http://s/1", "http://s/2", "http://s/3", "http://s/4", "http://s/5", "http://s/6",
   "http://s/7", "http://s/8", "http://s/9", "http://s/10", "http://s/11", "http://s/12"]

/-- Witness for C9's theorem: 12 absolute URLs, 10 survive, in page order. -/
theorem website_images_capped_witness :
    extract_images twelveImages "d" = twelveImages.take 10
    ∧ (extract_images twelveImages "d").length = 10
    ∧ deltaCandidates
        (.website (some { description := "", content := "",
                          images := extract_images twelveImages "d" }) "src" .failure)
      = (twelveImages.take 10).map (websiteCandidate "") :=
  (website_images_capped twelveImages "d" "" "" "src" .failure).2 (by decide) (by decide)

/-! ## Resume processing ignores its identifier (C10) -/

/-- C10: resume processing never reads its source identifier — the same
profile results from any two identifiers — and always extracts the fixed
mock contact fields, so every resume delta contributes
`email = "john@example.com"` and `phone = "(555) 123-4567"`. -/
theorem resume_ignores_identifier (p : Profile) (path1 path2 : String) (c : AICallResult) :
    process_resume_data p path1 c = process_resume_data p path2 c
    ∧ (process_resume_data p path1 c).email = some "john@example.com"
    ∧ (process_resume_data p path1 c).phone = some "(555) 123-4567" := by
  have he : emailField mock_resume_text = some "john@example.com" := by decide
  have hp : phoneField mock_resume_text = some "(555) 123-4567" := by decide
  refine ⟨rfl, ?_, ?_⟩
  · simp [process_resume_data, he]
  · simp [process_resume_data, hp]

end ProfileBuilder
